import Mathlib

/-
Verification of the luxor repository's request-execution layer:
the `protocol` package's status table (`ErrorForStatus`) and the
`client` package's `Controller.request` / `doPost` / facade methods.

The embedding models:
  * the Go standard library's `encoding/json` parse/unmarshal boundary
    (a JSON value type, a fuel-indexed parser, and unmarshal functions
    for the concrete response shapes the claims exercise);
  * `protocol.ErrorForStatus` and the `statusName` table verbatim;
  * `client.Controller.request` and `client.Controller.doPost` as a
    function of the call's environment: the serialization result, the
    cancellation token's state (done flag, `Err` value, optional
    deadline), the current time, which branch of the in-flight `select`
    race fires first, and the outcome of the HTTP exchange;
  * the uniform facade-method pattern (`facadeCall`) and `ThemeGet`.
Errors are an inductive mirroring each `return err` site, with a
`message` function mirroring the `fmt.Errorf` format strings.
-/

namespace Luxor

/-- JSON values, the model of what `encoding/json` parses a body into. -/
inductive Json where
  | null
  | bool (b : Bool)
  | num (n : Int)
  | str (s : String)
  | arr (elems : List Json)
  | obj (fields : List (String × Json))

/-- Whitespace characters JSON allows between tokens. -/
def isJsonWs (c : Char) : Bool :=
  c = ' ' || c = '\n' || c = '\t' || c = '\r'

/-- Drop leading JSON whitespace. -/
def skipWs : List Char → List Char
  | [] => []
  | c :: rest => if isJsonWs c then skipWs rest else c :: rest

/-- Parse the remainder of a JSON string literal, after the opening
quote, handling the single-character escapes. -/
def parseStringRest : List Char → Except String (String × List Char)
  | [] => .error "unexpected end of JSON input"
  | '"' :: rest => .ok ("", rest)
  | '\\' :: c :: rest =>
    let esc : Option Char :=
      if c = '"' then some '"'
      else if c = '\\' then some '\\'
      else if c = '/' then some '/'
      else if c = 'n' then some '\n'
      else if c = 't' then some '\t'
      else if c = 'r' then some '\r'
      else none
    match esc with
    | none => .error "invalid escape in string literal"
    | some c2 =>
      match parseStringRest rest with
      | .error e => .error e
      | .ok (s, r) => .ok (String.mk (c2 :: s.data), r)
  | ['\\'] => .error "unexpected end of JSON input"
  | c :: rest =>
    match parseStringRest rest with
    | .error e => .error e
    | .ok (s, r) => .ok (String.mk (c :: s.data), r)

/-- Numeric value of a list of decimal digits. -/
def digitsToNat (ds : List Char) : Nat :=
  ds.foldl (fun a c => a * 10 + (c.toNat - 48)) 0

/-- Parse a JSON integer literal (an optional minus sign and digits;
the protocol's bodies carry only integers). -/
def parseNumber : List Char → Except String (Json × List Char)
  | '-' :: rest =>
    match rest.span Char.isDigit with
    | ([], _) => .error "invalid number literal"
    | (ds, r) => .ok (.num (-(Int.ofNat (digitsToNat ds))), r)
  | s =>
    match s.span Char.isDigit with
    | ([], _) => .error "invalid number literal"
    | (ds, r) => .ok (.num (Int.ofNat (digitsToNat ds)), r)

mutual

/-- Parse one JSON value, fuel-indexed for termination. -/
def parseValue : Nat → List Char → Except String (Json × List Char)
  | 0, _ => .error "maximum nesting depth exceeded"
  | fuel+1, s =>
    match skipWs s with
    | [] => .error "unexpected end of JSON input"
    | 'n' :: 'u' :: 'l' :: 'l' :: rest => .ok (.null, rest)
    | 't' :: 'r' :: 'u' :: 'e' :: rest => .ok (.bool true, rest)
    | 'f' :: 'a' :: 'l' :: 's' :: 'e' :: rest => .ok (.bool false, rest)
    | '"' :: rest =>
      match parseStringRest rest with
      | .error e => .error e
      | .ok (str, r) => .ok (.str str, r)
    | '[' :: rest =>
      match skipWs rest with
      | ']' :: r => .ok (.arr [], r)
      | r2 =>
        match parseArrayItems fuel r2 with
        | .error e => .error e
        | .ok (vs, r) => .ok (.arr vs, r)
    | '\x7b' :: rest =>
      match skipWs rest with
      | '\x7d' :: r => .ok (.obj [], r)
      | r2 =>
        match parseObjFields fuel r2 with
        | .error e => .error e
        | .ok (fs, r) => .ok (.obj fs, r)
    | c :: rest =>
      if c = '-' || c.isDigit then parseNumber (c :: rest)
      else .error ("invalid character " ++ String.singleton c ++
        " looking for beginning of value")

/-- Parse the comma-separated elements of a non-empty JSON array,
up to and including the closing bracket. -/
def parseArrayItems : Nat → List Char → Except String (List Json × List Char)
  | 0, _ => .error "maximum nesting depth exceeded"
  | fuel+1, s =>
    match parseValue fuel s with
    | .error e => .error e
    | .ok (v, r1) =>
      match skipWs r1 with
      | ',' :: r2 =>
        match parseArrayItems fuel r2 with
        | .error e => .error e
        | .ok (vs, r3) => .ok (v :: vs, r3)
      | ']' :: r2 => .ok ([v], r2)
      | _ => .error "invalid character after array element"

/-- Parse the comma-separated members of a non-empty JSON object,
up to and including the closing brace. -/
def parseObjFields : Nat → List Char → Except String (List (String × Json) × List Char)
  | 0, _ => .error "maximum nesting depth exceeded"
  | fuel+1, s =>
    match skipWs s with
    | '"' :: rest =>
      match parseStringRest rest with
      | .error e => .error e
      | .ok (key, r1) =>
        match skipWs r1 with
        | ':' :: r2 =>
          match parseValue fuel r2 with
          | .error e => .error e
          | .ok (v, r3) =>
            match skipWs r3 with
            | ',' :: r4 =>
              match parseObjFields fuel r4 with
              | .error e => .error e
              | .ok (fs, r5) => .ok ((key, v) :: fs, r5)
            | '\x7d' :: r4 => .ok ([(key, v)], r4)
            | _ => .error "invalid character after object member"
        | _ => .error "invalid character after object key"
    | _ => .error "invalid character looking for object key"

end

/-- Parse a whole body as one JSON value with nothing but whitespace
after it, the check `encoding/json`'s `Unmarshal` performs. -/
def parseJson (body : String) : Except String Json :=
  match parseValue (2 * body.length + 2) body.data with
  | .error e => .error e
  | .ok (v, rest) =>
    match skipWs rest with
    | [] => .ok v
    | c :: _ => .error ("invalid character " ++ String.singleton c ++
      " after top-level value")

/-- Last binding of a field name in a decoded object, matching
`encoding/json`'s later-value-wins treatment of duplicate keys. -/
def lookupLast (fields : List (String × Json)) (name : String) : Option Json :=
  fields.foldl (fun acc f => if f.1 = name then some f.2 else acc) none

/-- Unmarshal a JSON value into a `uint8` field: integers in range
are accepted, `null` leaves the zero value, anything else errors. -/
def decodeUint8 (fieldName : String) : Json → Except String Nat
  | .null => .ok 0
  | .num n =>
    if 0 ≤ n && n ≤ 255 then .ok n.toNat
    else .error ("json: cannot unmarshal number into Go struct field " ++
      fieldName ++ " of type uint8")
  | _ => .error ("json: cannot unmarshal value into Go struct field " ++
    fieldName ++ " of type uint8")

/-- Unmarshal a JSON value into an `int` field. -/
def decodeIntField (fieldName : String) : Json → Except String Int
  | .null => .ok 0
  | .num n => .ok n
  | _ => .error ("json: cannot unmarshal value into Go struct field " ++
    fieldName ++ " of type int")

end Luxor

namespace Luxor

/-- Mirror of `protocol.ThemeGroup`: a (group number, intensity) pair
of `uint8` fields. -/
structure ThemeGroup where
  GroupNumber : Nat
  Intensity : Nat
deriving DecidableEq, Repr

/-- Mirror of `protocol.ThemeGetResponse`: a `Status` int and a list
of groups. The Go zero value has `Status = 0` and a nil slice. -/
structure ThemeGetResponse where
  Status : Int
  Groups : List ThemeGroup
deriving DecidableEq, Repr

/-- Unmarshal one array element into a `ThemeGroup`; absent fields
keep the struct's zero values, unknown fields are ignored. -/
def decodeThemeGroup : Json → Except String ThemeGroup
  | .null => .ok ⟨0, 0⟩
  | .obj fields => do
    let gn ← match lookupLast fields "GroupNumber" with
      | none => Except.ok 0
      | some v => decodeUint8 "ThemeGroup.GroupNumber" v
    let it ← match lookupLast fields "Intensity" with
      | none => Except.ok 0
      | some v => decodeUint8 "ThemeGroup.Intensity" v
    .ok ⟨gn, it⟩
  | _ => .error "json: cannot unmarshal value into Go value of type protocol.ThemeGroup"

/-- Unmarshal each element of the `Groups` array in order, stopping
at the first failure. -/
def decodeGroupList : List Json → Except String (List ThemeGroup)
  | [] => .ok []
  | j :: rest => do
    let g ← decodeThemeGroup j
    let gs ← decodeGroupList rest
    .ok (g :: gs)

/-- Unmarshal a parsed JSON value into `protocol.ThemeGetResponse`.
A missing `Status` or `Groups` member leaves the zero value. -/
def unmarshalThemeGetResponse : Json → Except String ThemeGetResponse
  | .null => .ok ⟨0, []⟩
  | .obj fields => do
    let status ← match lookupLast fields "Status" with
      | none => Except.ok (0 : Int)
      | some v => decodeIntField "ThemeGetResponse.Status" v
    let groups ← match lookupLast fields "Groups" with
      | none => Except.ok ([] : List ThemeGroup)
      | some (.null) => Except.ok ([] : List ThemeGroup)
      | some (.arr elems) => decodeGroupList elems
      | some _ => Except.error "json: cannot unmarshal value into Go struct field ThemeGetResponse.Groups of type []protocol.ThemeGroup"
    .ok ⟨status, groups⟩
  | _ => .error "json: cannot unmarshal value into Go value of type protocol.ThemeGetResponse"

/-- Model of `json.Unmarshal(body, &protocol.ThemeGetResponse)`:
parse the body, then fill the response shape. -/
def decodeThemeGetResponse (body : String) : Except String ThemeGetResponse :=
  match parseJson body with
  | .error e => .error e
  | .ok v => unmarshalThemeGetResponse v

/-- Mirror of the `protocol.statusName` map literal: the closed table
of known device status codes and their descriptions. -/
def statusName : List (Int × String) :=
  [(0, "ok"),
   (1, "unknown method"),
   (101, "unparseable request"),
   (102, "invalid request"),
   (201, "precondition failed"),
   (202, "group name in use"),
   (205, "group number in use"),
   (243, "theme index out of range")]

/-- Lookup in the status table, the model of the Go map index
`statusName[status]`. -/
def lookupStatus : List (Int × String) → Int → Option String
  | [], _ => none
  | (k, v) :: rest, s => if s = k then some v else lookupStatus rest s

/-- Mirror of `protocol.ErrorForStatus`: `none` models a nil error,
`some msg` an error whose `Error()` string is `msg`. -/
def ErrorForStatus (status : Int) : Option String :=
  if status = 0 then none
  else
    match lookupStatus statusName status with
    | some statusStr => some statusStr
    | none => some ("unknown status " ++ toString status)

/-- Value of `ctx.Err()` once a context's `Done` channel is closed:
`context.Canceled` after an explicit cancel, `context.DeadlineExceeded`
after a deadline expiry. -/
inductive CtxErr where
  | canceled
  | deadlineExceeded
deriving DecidableEq, Repr

/-- Outcome of the HTTP exchange `doPost` performs, as the environment
delivers it: a connection-level error from `httpClient.Post`, a body
read error from `ioutil.ReadAll`, or a complete response carrying the
numeric status code, the status line, the `Content-Type` header and
the body. -/
inductive ExchangeOutcome where
  | netError (msg : String)
  | readError (msg : String)
  | completed (statusCode : Nat) (statusLine : String)
      (contentType : String) (body : String)
deriving DecidableEq, Repr

/-- Every error `Controller.request` can return, one constructor per
`return err` site in `request` and `doPost`. -/
inductive ReqError where
  | ctxError (e : CtxErr)
  | marshalError (msg : String)
  | transportError (msg : String)
  | unexpectedHTTPStatus (statusLine : String) (body : String)
  | unexpectedContentType (contentType : String) (body : String)
  | jsonError (parseErr : String) (body : String)
deriving DecidableEq, Repr

/-- Hexadecimal digit character for a value below 16, as
`strconv.Quote` renders escape digits. -/
def hexDigit (n : Nat) : Char :=
  if n < 10 then Char.ofNat (48 + n) else Char.ofNat (87 + n)

/-- Escaping of one character under Go's `%q` verb (`strconv.Quote`):
quote and backslash are backslash-escaped, the named control escapes
are used for bell through carriage return, other control characters
and delete get `\x` hex escapes, and characters above ASCII get a
`\u` escape. (`strconv.Quote` keeps printable non-ASCII runes
literal; the protocol's bodies are ASCII, and the theorems below use
this function only on ASCII text, where it matches Go exactly, with
the conservative direction — escaping more, never less — elsewhere.) -/
def goEscapeChar (c : Char) : List Char :=
  if c = '"' then ['\\', '"']
  else if c = '\\' then ['\\', '\\']
  else if c = '\x07' then ['\\', 'a']
  else if c = '\x08' then ['\\', 'b']
  else if c = '\x09' then ['\\', 't']
  else if c = '\x0a' then ['\\', 'n']
  else if c = '\x0b' then ['\\', 'v']
  else if c = '\x0c' then ['\\', 'f']
  else if c = '\x0d' then ['\\', 'r']
  else if c.toNat < 32 ∨ c.toNat = 127 then
    ['\\', 'x', hexDigit (c.toNat / 16), hexDigit (c.toNat % 16)]
  else if 127 < c.toNat then
    ['\\', 'u', hexDigit (c.toNat / 4096 % 16), hexDigit (c.toNat / 256 % 16),
     hexDigit (c.toNat / 16 % 16), hexDigit (c.toNat % 16)]
  else [c]

/-- Rendering of Go's `%q` verb on a string: the character-wise
escaped text wrapped in double quotes. -/
def goQuote (s : String) : String :=
  String.mk ('"' :: s.data.foldr (fun c acc => goEscapeChar c ++ acc) ['"'])

/-- The `Error()` string of each error, mirroring the `fmt.Errorf`
format strings in `client.go` and the fixed messages of
`context.Canceled` and `context.DeadlineExceeded`. -/
def ReqError.message : ReqError → String
  | .ctxError .canceled => "context canceled"
  | .ctxError .deadlineExceeded => "context deadline exceeded"
  | .marshalError msg => msg
  | .transportError msg => msg
  | .unexpectedHTTPStatus statusLine body =>
    "Unexpected HTTP status: " ++ goQuote statusLine ++ " with body: " ++ goQuote body
  | .unexpectedContentType contentType body =>
    "Unexpected response content type: " ++ goQuote contentType ++ " with body: " ++ goQuote body
  | .jsonError parseErr body =>
    "JSON error: " ++ parseErr ++ " while parsing body: " ++ goQuote body

/-- Mirror of `client.Controller.doPost`'s validation of one exchange:
connection and read errors pass through; then a status code other
than 200 is rejected with the status line and body; then a
`Content-Type` other than exactly `application/json` is rejected with
the observed type and body; otherwise the body is handed back.
The request body is sent on the wire and does not affect validation. -/
def doPost (requestBody : String) (outcome : ExchangeOutcome) :
    Except ReqError String :=
  match requestBody, outcome with
  | _, .netError msg => .error (.transportError msg)
  | _, .readError msg => .error (.transportError msg)
  | _, .completed statusCode statusLine contentType body =>
    if statusCode ≠ 200 then .error (.unexpectedHTTPStatus statusLine body)
    else if contentType ≠ "application/json" then
      .error (.unexpectedContentType contentType body)
    else .ok body

/-- What one call to `Controller.request` produces: the returned
result, and whether `doPost` was launched (any HTTP I/O attempted). -/
structure RequestOutcome (ρ : Type) where
  result : Except ReqError ρ
  httpIssued : Bool
deriving Repr

/-- Mirror of `client.Controller.request`, as a function of the
call's environment:
  * `marshalResult` — what `json.Marshal(request)` returns;
  * `ctxDone` — whether the token's `Done` channel is already closed
    at the pre-flight `select`, and `ctxErr` the value `ctx.Err()`
    then carries;
  * `deadline`/`now` — the token's optional absolute deadline and the
    current time (`time.Time` values, in nanoseconds);
  * `cancelFirst` — which arm of the in-flight `select` fires first:
    `true` when `ctx.Done()` wins the race, `false` when the
    `doPost` result arrives first;
  * `outcome` — the HTTP exchange's outcome;
  * `decode` — `json.Unmarshal` into the response payload's shape.
The function follows the source line by line: marshal, pre-flight
done check, deadline resolution with the `timeout <= 0` early
return of `context.Canceled`, then the race between cancellation
and the `doPost` result, then unmarshal. -/
def request {ρ : Type} (marshalResult : Except String String)
    (ctxDone : Bool) (ctxErr : CtxErr)
    (deadline : Option Int) (now : Int)
    (cancelFirst : Bool) (outcome : ExchangeOutcome)
    (decode : String → Except String ρ) : RequestOutcome ρ :=
  match marshalResult with
  | .error e => ⟨.error (.marshalError e), false⟩
  | .ok serializedReq =>
    if ctxDone then ⟨.error (.ctxError ctxErr), false⟩
    else
      let dispatch : RequestOutcome ρ :=
        if cancelFirst then ⟨.error (.ctxError ctxErr), true⟩
        else
          match doPost serializedReq outcome with
          | .error e => ⟨.error e, true⟩
          | .ok body =>
            match decode body with
            | .error parseErr => ⟨.error (.jsonError parseErr body), true⟩
            | .ok resp => ⟨.ok resp, true⟩
      match deadline with
      | none => dispatch
      | some d => if d - now ≤ 0 then ⟨.error (.ctxError .canceled), false⟩ else dispatch

/-- Error returned by a facade method: either the executor's error
passed through unchanged, or a status-table error from
`protocol.ErrorForStatus` on the decoded response's `Status`. -/
inductive FacadeError where
  | exec (e : ReqError)
  | status (msg : String)
deriving DecidableEq, Repr

/-- The uniform pattern of every `client.Controller` facade method:
if `request` fails, return `(nil, err)`; otherwise return the decoded
response together with `protocol.ErrorForStatus(resp.Status)`. -/
def facadeCall {ρ : Type} (execResult : Except ReqError ρ)
    (status : ρ → Int) : Option ρ × Option FacadeError :=
  match execResult with
  | .error e => (none, some (.exec e))
  | .ok resp => (some resp, (ErrorForStatus (status resp)).map FacadeError.status)

/-- Mirror of `client.Controller.ThemeGet`: run `request` with the
`ThemeGetResponse` unmarshaller, then apply the facade pattern to the
decoded response's `Status` field. -/
def ThemeGet (marshalResult : Except String String)
    (ctxDone : Bool) (ctxErr : CtxErr)
    (deadline : Option Int) (now : Int)
    (cancelFirst : Bool) (outcome : ExchangeOutcome) :
    Option ThemeGetResponse × Option FacadeError :=
  facadeCall
    (request marshalResult ctxDone ctxErr deadline now cancelFirst outcome
      decodeThemeGetResponse).result
    (fun resp => resp.Status)

/-- Every status other than 0 yields a non-nil error from
`ErrorForStatus`: either a table entry or the unknown-status message. -/
theorem errorForStatus_isSome (s : Int) (h : s ≠ 0) :
    ∃ msg, ErrorForStatus s = some msg := by
  unfold ErrorForStatus
  rw [if_neg h]
  cases lookupStatus statusName s with
  | none => exact ⟨_, rfl⟩
  | some v => exact ⟨v, rfl⟩

/-- Whether the first list is an initial segment of the second. -/
def leadsChars : List Char → List Char → Bool
  | [], _ => true
  | _ :: _, [] => false
  | a :: as, b :: bs => a == b && leadsChars as bs

/-- Whether the second list occurs contiguously inside the first. -/
def containsSeq : List Char → List Char → Bool
  | [], needle => needle.isEmpty
  | h :: hs, needle => leadsChars needle (h :: hs) || containsSeq hs needle

/-- A list is an initial segment of itself followed by anything. -/
theorem leadsChars_self_append (l r : List Char) : leadsChars l (l ++ r) = true := by
  induction l with
  | nil => rfl
  | cons a as ih => simp [leadsChars, ih]

/-- A list occurs inside any concatenation that embeds it. -/
theorem containsSeq_append (pre mid post : List Char) :
    containsSeq (pre ++ (mid ++ post)) mid = true := by
  induction pre with
  | nil =>
    cases h : mid ++ post with
    | nil =>
      have hm : mid = [] := (List.append_eq_nil.mp h).1
      subst hm
      rfl
    | cons c cs =>
      show (leadsChars mid (c :: cs) || containsSeq cs mid) = true
      rw [← h, leadsChars_self_append]
      rfl
  | cons p ps ih =>
    show (leadsChars mid (p :: (ps ++ (mid ++ post))) || containsSeq (ps ++ (mid ++ post)) mid) = true
    rw [ih]
    exact Bool.or_true _

/-- String version of `containsSeq_append`: a string occurs inside
any concatenation whose middle part it is. -/
theorem containsSeq_of_append (pre mid post : String) :
    containsSeq (pre ++ (mid ++ post)).data mid.data = true := by
  rcases pre with ⟨lp⟩
  rcases mid with ⟨lm⟩
  rcases post with ⟨lo⟩
  exact containsSeq_append lp lm lo

/-- On printable ASCII characters other than quote and backslash,
Go's `%q` escaping leaves the character unchanged. -/
theorem goEscapeChar_safe (c : Char) (h32 : 32 ≤ c.toNat) (h126 : c.toNat ≤ 126)
    (hq : c ≠ '"') (hb : c ≠ '\\') : goEscapeChar c = [c] := by
  have hctl : ∀ d : Char, d.toNat < 32 → c ≠ d := by
    intro d hd e
    rw [e] at h32
    omega
  unfold goEscapeChar
  rw [if_neg hq, if_neg hb,
    if_neg (hctl _ (by decide)), if_neg (hctl _ (by decide)),
    if_neg (hctl _ (by decide)), if_neg (hctl _ (by decide)),
    if_neg (hctl _ (by decide)), if_neg (hctl _ (by decide)),
    if_neg (hctl _ (by decide))]
  rw [if_neg (by omega), if_neg (by omega)]

/-- Character-wise escaping of an all-quote-safe list is the list
itself, still followed by the closing quote. -/
theorem foldrEscape_safe (l : List Char)
    (h : ∀ c ∈ l, 32 ≤ c.toNat ∧ c.toNat ≤ 126 ∧ c ≠ '"' ∧ c ≠ '\\') :
    l.foldr (fun c acc => goEscapeChar c ++ acc) ['"'] = l ++ ['"'] := by
  induction l with
  | nil => rfl
  | cons c rest ih =>
    have hc := h c (by simp)
    rw [List.foldr_cons, ih (fun x hx => h x (by simp [hx])),
      goEscapeChar_safe c hc.1 hc.2.1 hc.2.2.1 hc.2.2.2]
    rfl

/-- On a body of printable ASCII characters without quotes or
backslashes, Go's `%q` rendering is the body wrapped in bare quotes. -/
theorem goQuote_safe (s : String)
    (h : ∀ c ∈ s.data, 32 ≤ c.toNat ∧ c.toNat ≤ 126 ∧ c ≠ '"' ∧ c ≠ '\\') :
    goQuote s = "\"" ++ s ++ "\"" := by
  rcases s with ⟨data⟩
  show String.mk ('"' :: data.foldr (fun c acc => goEscapeChar c ++ acc) ['"']) = _
  rw [foldrEscape_safe data h]
  rfl

/-- Claim C1: for every request payload whose serialization succeeds,
if the cancellation token is already canceled when `request` is
invoked, `request` returns the token's `Canceled` error and launches
no HTTP exchange, whatever the deadline, the race, the exchange
environment or the response decoder would have been. -/
theorem c1_already_canceled {ρ : Type} (serializedReq : String)
    (deadline : Option Int) (now : Int) (cancelFirst : Bool)
    (outcome : ExchangeOutcome) (decode : String → Except String ρ) :
    request (.ok serializedReq) true .canceled deadline now cancelFirst outcome decode
      = ⟨.error (.ctxError .canceled), false⟩ := rfl

/-- Claim C2 counterexample: a call whose token carries an already
elapsed deadline (deadline − now = 0) but whose payload fails to
serialize returns the serialization error, not `Canceled`:
`json.Marshal` runs before the deadline resolution, so the frozen
claim fails on unserializable payloads. -/
theorem c2_counterexample :
    request (.error "json: unsupported type: chan int") false .canceled (some 0) 0 false
        (.completed 200 "200 OK" "application/json" "\x7b\"Status\":0\x7d")
        decodeThemeGetResponse
      = ⟨.error (.marshalError "json: unsupported type: chan int"), false⟩
    ∧ ReqError.marshalError "json: unsupported type: chan int"
        ≠ ReqError.ctxError .canceled :=
  ⟨rfl, by decide⟩

/-- Claim C2 as amended: for every call whose payload serializes
successfully and whose token carries a deadline with the done-signal
not yet fired at the pre-flight check, a remaining duration
deadline − now less than or equal to zero makes `request` return
`context.Canceled` with no HTTP exchange launched — zero remaining
time is treated as already canceled, never as no timeout; if
serialization fails instead, the serialization error is returned,
still with no network I/O. -/
theorem c2_deadline_elapsed {ρ : Type} (serializedReq marshalErrMsg : String)
    (ctxErr : CtxErr) (d now : Int) (cancelFirst : Bool) (outcome : ExchangeOutcome)
    (decode : String → Except String ρ) (h : d - now ≤ 0) :
    request (.ok serializedReq) false ctxErr (some d) now cancelFirst outcome decode
      = ⟨.error (.ctxError .canceled), false⟩
    ∧ request (.error marshalErrMsg) false ctxErr (some d) now cancelFirst outcome decode
      = ⟨.error (.marshalError marshalErrMsg), false⟩ :=
  ⟨by simp [request, h], rfl⟩

/-- Witness for C2 at the boundary: a deadline equal to the current
time (remaining duration exactly zero) is already canceled. -/
theorem c2_witness :
    (0 : Int) - 0 ≤ 0
    ∧ request (.ok "\x7b\x7d") false .canceled (some 0) 0 false
        (.completed 200 "200 OK" "application/json" "\x7b\"Status\":0\x7d")
        decodeThemeGetResponse
      = ⟨.error (.ctxError .canceled), false⟩ :=
  ⟨by decide,
   (c2_deadline_elapsed "\x7b\x7d" "json: unsupported type: chan int" .canceled 0 0 false
     (.completed 200 "200 OK" "application/json" "\x7b\"Status\":0\x7d")
     decodeThemeGetResponse (by decide)).1⟩

/-- Claim C3: if the cancellation token fires while the HTTP exchange
is in flight (the done-signal wins the race), `request` returns the
token's `Canceled` error, and the abandoned exchange's eventual
outcome is discarded: the returned value is the same whatever the
exchange would have produced, so no response is ever delivered. -/
theorem c3_canceled_mid_flight {ρ : Type} (serializedReq : String)
    (now : Int) (outcome : ExchangeOutcome) (decode : String → Except String ρ) :
    request (.ok serializedReq) false .canceled none now true outcome decode
      = ⟨.error (.ctxError .canceled), true⟩
    ∧ ∀ outcome2 : ExchangeOutcome,
      request (.ok serializedReq) false .canceled none now true outcome2 decode
        = request (.ok serializedReq) false .canceled none now true outcome decode :=
  ⟨rfl, fun _ => rfl⟩

/-- Claim C4 counterexample: with an already-canceled token and a
payload whose serialization fails, `request` returns the
serialization error, not `Canceled`: serialization runs before the
pre-flight cancellation check, contrary to the claimed step order. -/
theorem c4_counterexample :
    request (.error "json: unsupported type: chan int") true .canceled none 0 false
        (.completed 200 "200 OK" "application/json" "\x7b\"Status\":0\x7d")
        decodeThemeGetResponse
      = ⟨.error (.marshalError "json: unsupported type: chan int"), false⟩
    ∧ ReqError.marshalError "json: unsupported type: chan int"
        ≠ ReqError.ctxError .canceled :=
  ⟨rfl, by decide⟩

/-- Claim C4 as amended: serialization precedes the pre-flight
cancellation check. If serialization fails, `request` returns the
serialization error — even when the token is already canceled — and
performs no network I/O; if serialization succeeds and the token is
already canceled, `request` returns `Canceled` with no network I/O. -/
theorem c4_amended_order {ρ : Type} (marshalErrMsg serializedReq : String)
    (deadline : Option Int) (now : Int) (cancelFirst : Bool)
    (outcome : ExchangeOutcome) (decode : String → Except String ρ) :
    request (.error marshalErrMsg) true .canceled deadline now cancelFirst outcome decode
      = ⟨.error (.marshalError marshalErrMsg), false⟩
    ∧ request (.ok serializedReq) true .canceled deadline now cancelFirst outcome decode
      = ⟨.error (.ctxError .canceled), false⟩ :=
  ⟨rfl, rfl⟩

/-- Claim C5: `ErrorForStatus status` is nil exactly when `status`
is 0; each non-zero status in the known table yields an error whose
message is exactly the table's description; and every other integer
yields exactly the message `unknown status` followed by the raw
numeric value, never a known error's message. -/
theorem c5_error_for_status (status : Int) :
    (ErrorForStatus status = none ↔ status = 0)
    ∧ ErrorForStatus 1 = some "unknown method"
    ∧ ErrorForStatus 101 = some "unparseable request"
    ∧ ErrorForStatus 102 = some "invalid request"
    ∧ ErrorForStatus 201 = some "precondition failed"
    ∧ ErrorForStatus 202 = some "group name in use"
    ∧ ErrorForStatus 205 = some "group number in use"
    ∧ ErrorForStatus 243 = some "theme index out of range"
    ∧ (status ≠ 0 → status ≠ 1 → status ≠ 101 → status ≠ 102 → status ≠ 201 →
        status ≠ 202 → status ≠ 205 → status ≠ 243 →
        ErrorForStatus status = some ("unknown status " ++ toString status)) := by
  refine ⟨⟨fun h => ?_, fun h => by rw [h]; rfl⟩, rfl, rfl, rfl, rfl, rfl, rfl, rfl, ?_⟩
  · by_contra hs
    obtain ⟨msg, hm⟩ := errorForStatus_isSome status hs
    rw [hm] at h
    cases h
  · intro h0 h1 h101 h102 h201 h202 h205 h243
    unfold ErrorForStatus
    rw [if_neg h0]
    have hl : lookupStatus statusName status = none := by
      simp [statusName, lookupStatus, h0, h1, h101, h102, h201, h202, h205, h243]
    rw [hl]

/-- Witness for C5: status 0 maps to nil, and the unrecognized
status 55 maps to the unknown-status message with its raw value. -/
theorem c5_witness :
    ErrorForStatus 0 = none
    ∧ ErrorForStatus 55 = some ("unknown status " ++ toString (55 : Int)) :=
  ⟨(c5_error_for_status 0).1.mpr rfl,
   (c5_error_for_status 55).2.2.2.2.2.2.2.2 (by decide) (by decide) (by decide)
     (by decide) (by decide) (by decide) (by decide) (by decide)⟩

/-- Claim C6 counterexample: for status 0 — a code listed in the
known table with description `ok` — `ErrorForStatus` returns nil,
not an error whose description matches the table entry. -/
theorem c6_counterexample :
    ErrorForStatus 0 = none ∧ ErrorForStatus 0 ≠ some "ok" :=
  ⟨rfl, by decide⟩

/-- Claim C6 as amended: for status 0, `ErrorForStatus` returns nil;
for every other status code listed in the known table it returns an
error whose description exactly matches the table entry. -/
theorem c6_amended_table :
    ErrorForStatus 0 = none
    ∧ ErrorForStatus 1 = some "unknown method"
    ∧ ErrorForStatus 101 = some "unparseable request"
    ∧ ErrorForStatus 102 = some "invalid request"
    ∧ ErrorForStatus 201 = some "precondition failed"
    ∧ ErrorForStatus 202 = some "group name in use"
    ∧ ErrorForStatus 205 = some "group number in use"
    ∧ ErrorForStatus 243 = some "theme index out of range" :=
  ⟨rfl, rfl, rfl, rfl, rfl, rfl, rfl, rfl⟩

/-- Claim C7: transport-level validation of a completed exchange
short-circuits in order. A status code other than 200 yields the
unexpected-HTTP-status error carrying the status line and raw body,
whatever the content type and body; with status 200, a content type
other than exactly `application/json` yields the
unexpected-content-type error carrying the observed type and raw
body; only when both checks pass is the body deserialized. -/
theorem c7_transport_validation {ρ : Type} (serializedReq : String) (ctxErr : CtxErr)
    (now : Int) (statusCode : Nat) (statusLine contentType body : String)
    (decode : String → Except String ρ) :
    (statusCode ≠ 200 →
      (request (.ok serializedReq) false ctxErr none now false
          (.completed statusCode statusLine contentType body) decode).result
        = .error (.unexpectedHTTPStatus statusLine body))
    ∧ (contentType ≠ "application/json" →
      (request (.ok serializedReq) false ctxErr none now false
          (.completed 200 statusLine contentType body) decode).result
        = .error (.unexpectedContentType contentType body))
    ∧ ((request (.ok serializedReq) false ctxErr none now false
          (.completed 200 statusLine "application/json" body) decode).result
        = match decode body with
          | .error parseErr => .error (.jsonError parseErr body)
          | .ok resp => .ok resp) := by
  refine ⟨fun h => ?_, fun h => ?_, ?_⟩
  · simp [request, doPost, h]
  · simp [request, doPost, h]
  · rcases hd : decode body with parseErr | resp
    · simp [request, doPost, hd]
    · simp [request, doPost, hd]

/-- Witness for C7: a 500 response with a plain-text body yields the
unexpected-HTTP-status error carrying the status line and the body. -/
theorem c7_witness :
    (500 : Nat) ≠ 200
    ∧ (request (.ok "\x7b\"ThemeIndex\":0\x7d") false .canceled none 0 false
        (.completed 500 "500 Internal Server Error" "text/plain; charset=utf-8"
          "Horrible problem\n")
        decodeThemeGetResponse).result
      = .error (.unexpectedHTTPStatus "500 Internal Server Error" "Horrible problem\n") :=
  ⟨by decide,
   (c7_transport_validation "\x7b\"ThemeIndex\":0\x7d" .canceled 0 500
     "500 Internal Server Error" "text/plain; charset=utf-8" "Horrible problem\n"
     decodeThemeGetResponse).1 (by decide)⟩

/-- Claim C8: every facade method composes the executor with the
status table. If the executor returns an error, the method returns a
nil response with that error; if it succeeds, the method returns the
decoded response together with `ErrorForStatus` of its `Status`
field — in particular, a non-zero `Status` still returns the decoded
response, now alongside a non-nil error. -/
theorem c8_facade_composition {ρ : Type} (execResult : Except ReqError ρ)
    (status : ρ → Int) :
    (∀ e : ReqError, execResult = .error e →
      facadeCall execResult status = (none, some (.exec e)))
    ∧ (∀ resp : ρ, execResult = .ok resp →
      facadeCall execResult status
        = (some resp, (ErrorForStatus (status resp)).map FacadeError.status)
      ∧ (status resp ≠ 0 → ∃ msg, facadeCall execResult status
          = (some resp, some (.status msg)))) := by
  constructor
  · intro e h
    subst h
    rfl
  · intro resp h
    subst h
    refine ⟨rfl, fun hs => ?_⟩
    obtain ⟨msg, hm⟩ := errorForStatus_isSome (status resp) hs
    exact ⟨msg, by simp [facadeCall, hm]⟩

/-- Witness for C8: a decoded response with `Status = 1` is returned
alongside the status-table error `unknown method`. -/
theorem c8_witness :
    facadeCall (Except.ok (⟨1, []⟩ : ThemeGetResponse)) (fun r => r.Status)
      = (some ⟨1, []⟩, some (.status "unknown method")) :=
  (((c8_facade_composition (Except.ok (⟨1, []⟩ : ThemeGetResponse))
    (fun r => r.Status)).2 ⟨1, []⟩ rfl).1).trans rfl

/-- Claim C9 counterexample: the undecodable body consisting of the
three characters a, double quote, b is rendered by Go's `%q` with
its quote escaped, so the returned error's message does not contain
the raw body text verbatim: no decomposition of the message around
the raw body exists. -/
theorem c9_counterexample :
    (request (.ok "\x7b\"ThemeIndex\":0\x7d") false .canceled none 0 false
        (.completed 200 "200 OK" "application/json" "a\"b")
        decodeThemeGetResponse).result
      = .error (.jsonError "invalid character a looking for beginning of value" "a\"b")
    ∧ containsSeq
        (ReqError.message (.jsonError "invalid character a looking for beginning of value" "a\"b")).data
        ("a\"b").data = false
    ∧ ¬ ∃ pre post : String,
        ReqError.message (.jsonError "invalid character a looking for beginning of value" "a\"b")
          = pre ++ "a\"b" ++ post := by
  refine ⟨rfl, by decide, ?_⟩
  rintro ⟨pre, post, h⟩
  have h2 := containsSeq_of_append pre "a\"b" post
  rw [← String.append_assoc, ← h] at h2
  have h3 : containsSeq
      (ReqError.message (.jsonError "invalid character a looking for beginning of value" "a\"b")).data
      ("a\"b").data = false := by decide
  exact Bool.noConfusion (h3.symm.trans h2)

/-- Claim C9 as amended: for every body that passes transport-level
validation (status 200, content type `application/json`) but fails
to decode into the response payload's shape, `request` returns the
JSON error carrying the parse failure and the body; the rendered
message contains the parse error text and the body in Go's
`%q`-quoted form; and whenever the body consists of printable ASCII
characters free of quotes and backslashes (so `%q` leaves it
unchanged, as in the `asdf` scenario) the message contains the raw
body text verbatim. -/
theorem c9_malformed_response {ρ : Type} (serializedReq statusLine body parseErr : String)
    (ctxErr : CtxErr) (now : Int) (decode : String → Except String ρ)
    (h : decode body = .error parseErr) :
    (request (.ok serializedReq) false ctxErr none now false
        (.completed 200 statusLine "application/json" body) decode).result
      = .error (.jsonError parseErr body)
    ∧ (∃ pre, (ReqError.jsonError parseErr body).message = pre ++ goQuote body)
    ∧ (∃ pre post,
        (ReqError.jsonError parseErr body).message = pre ++ parseErr ++ post)
    ∧ ((∀ c ∈ body.data, 32 ≤ c.toNat ∧ c.toNat ≤ 126 ∧ c ≠ '"' ∧ c ≠ '\\') →
        ∃ pre post,
          (ReqError.jsonError parseErr body).message = pre ++ body ++ post) := by
  refine ⟨by simp [request, doPost, h], ?_, ?_, ?_⟩
  · exact ⟨"JSON error: " ++ parseErr ++ " while parsing body: ", rfl⟩
  · refine ⟨"JSON error: ", " while parsing body: " ++ goQuote body, ?_⟩
    simp only [ReqError.message, String.append_assoc]
  · intro hsafe
    refine ⟨"JSON error: " ++ parseErr ++ " while parsing body: " ++ "\"", "\"", ?_⟩
    show "JSON error: " ++ parseErr ++ " while parsing body: " ++ goQuote body = _
    rw [goQuote_safe body hsafe]
    simp only [String.append_assoc]

/-- Witness for C9: the invalid body `asdf` fails to decode as a
`ThemeGetResponse`, `request` returns the JSON error carrying the
parse failure and that body, and — `asdf` being quote-safe — the
rendered message contains the raw body text verbatim. -/
theorem c9_witness :
    decodeThemeGetResponse "asdf"
      = .error "invalid character a looking for beginning of value"
    ∧ (request (.ok "\x7b\"ThemeIndex\":0\x7d") false .canceled none 0 false
        (.completed 200 "200 OK" "application/json" "asdf")
        decodeThemeGetResponse).result
      = .error (.jsonError "invalid character a looking for beginning of value" "asdf")
    ∧ ∃ pre post,
        (ReqError.jsonError "invalid character a looking for beginning of value" "asdf").message
          = pre ++ "asdf" ++ post :=
  ⟨rfl,
   (c9_malformed_response "\x7b\"ThemeIndex\":0\x7d" "200 OK" "asdf"
     "invalid character a looking for beginning of value" .canceled 0
     decodeThemeGetResponse rfl).1,
   (c9_malformed_response "\x7b\"ThemeIndex\":0\x7d" "200 OK" "asdf"
     "invalid character a looking for beginning of value" .canceled 0
     decodeThemeGetResponse rfl).2.2.2 (by decide)⟩

/-- Claim C10: the `ThemeGet` round trip on a 200 `application/json`
response whose body lists two groups and carries no `Status` member
decodes exactly those two group entries with `Status` defaulting to
zero, and the facade returns the response with no error: an absent
`Status` field is treated as success. -/
theorem c10_themeget_roundtrip :
    decodeThemeGetResponse
        "\x7b\"Groups\":[\x7b\"GroupNumber\":0,\"Intensity\":26\x7d,\x7b\"GroupNumber\":1,\"Intensity\":42\x7d]\x7d"
      = .ok ⟨0, [⟨0, 26⟩, ⟨1, 42⟩]⟩
    ∧ ThemeGet (.ok "\x7b\"ThemeIndex\":0\x7d") false .canceled none 0 false
        (.completed 200 "200 OK" "application/json"
          "\x7b\"Groups\":[\x7b\"GroupNumber\":0,\"Intensity\":26\x7d,\x7b\"GroupNumber\":1,\"Intensity\":42\x7d]\x7d")
      = (some ⟨0, [⟨0, 26⟩, ⟨1, 42⟩]⟩, none) :=
  ⟨rfl, rfl⟩

end Luxor
